import Mathlib

/-!
Shallow embedding of the orchestration core of `src/core/Agent.js`
(class `CoreAgent`): conversation state, request building, context-window
pruning, the tool-call loop, metrics and session snapshots.

Modelling conventions:
* JS numbers are modelled as `ℚ` (the source only ever manipulates exact
  decimal constants and integer counters here).
* `Date.now()` is modelled by a monotone counter `clock` carried in the
  agent state; every `addToHistory` stamps and bumps it.
* The network (`fetch` in `callLLMAPI`) and tool execution
  (`JSON.parse(arguments)` + `executeTool`, which runs arbitrary async
  code from the tool registry) are the two external-effect boundaries;
  they are modelled as oracles `Api` and `Exec` passed to the functions
  that use them.
* `JSON.stringify` is modelled by an executable renderer `jsonRender`
  over a `Json` value type; strings are escaped exactly as JSON.stringify
  escapes them.
-/

namespace AgentJs

/- JSON values (tool results, tool schemas, usage blobs). Arrays and
objects carry their own list types so that all recursion is structural. -/
mutual

inductive Json where
  | null : Json
  | bool (b : Bool) : Json
  | num (q : ℚ) : Json
  | str (s : String) : Json
  | arr (elems : JsonList) : Json
  | obj (fields : JsonFields) : Json

inductive JsonList where
  | nil : JsonList
  | cons (head : Json) (tail : JsonList) : JsonList

inductive JsonFields where
  | nil : JsonFields
  | cons (key : String) (val : Json) (tail : JsonFields) : JsonFields

end

/-- Hex digit, lowercase, as produced by JSON.stringify control escapes. -/
def hexDigit (n : Nat) : Char :=
  if n < 10 then Char.ofNat (48 + n) else Char.ofNat (87 + n)

/-- Escape of a single character, exactly as JSON.stringify escapes
string contents. -/
def jsonEscapeChar (c : Char) : String :=
  if c = '"' then "\\\""
  else if c = '\\' then "\\\\"
  else if c = '\x08' then "\\b"
  else if c = '\x09' then "\\t"
  else if c = '\x0a' then "\\n"
  else if c = '\x0c' then "\\f"
  else if c = '\x0d' then "\\r"
  else if c.toNat < 32 then
    "\\u00" ++ String.mk [hexDigit (c.toNat / 16), hexDigit (c.toNat % 16)]
  else String.singleton c

/-- A JSON string literal with quotes, as JSON.stringify prints it. -/
def jsonQuote (s : String) : String :=
  "\"" ++ String.join (s.toList.map jsonEscapeChar) ++ "\""

/-- Decimal digits of `rem / den` (`0 < rem < den`), up to `fuel` digits,
stopping when the remainder vanishes. -/
def decDigits : Nat → Nat → Nat → String
  | 0, _, _ => ""
  | fuel + 1, den, rem =>
    if rem = 0 then ""
    else toString (rem * 10 / den) ++ decDigits fuel den (rem * 10 % den)

/-- Printing of a JS number (here: an exact rational) the way
JSON.stringify prints the decimal constants the source uses. -/
def jsNumRepr (q : ℚ) : String :=
  let sign := if q.num < 0 then "-" else ""
  let a := q.num.natAbs
  if a % q.den = 0 then sign ++ toString (a / q.den)
  else sign ++ toString (a / q.den) ++ "." ++ decDigits 17 q.den (a % q.den)

/- The renderer mirrors JSON.stringify on this value type. -/
mutual

/-- `JSON.stringify` of a JSON value. -/
def jsonRender : Json → String
  | .null => "null"
  | .bool b => cond b "true" "false"
  | .num q => jsNumRepr q
  | .str s => jsonQuote s
  | .arr xs => "[" ++ jsonRenderArr xs ++ "]"
  | .obj fs => "\x7b" ++ jsonRenderObj fs ++ "\x7d"

/-- Comma-separated rendering of array elements. -/
def jsonRenderArr : JsonList → String
  | .nil => ""
  | .cons x .nil => jsonRender x
  | .cons x (.cons y t) => jsonRender x ++ "," ++ jsonRenderArr (.cons y t)

/-- Comma-separated rendering of object fields, in insertion order. -/
def jsonRenderObj : JsonFields → String
  | .nil => ""
  | .cons k v .nil => jsonQuote k ++ ":" ++ jsonRender v
  | .cons k v (.cons k2 v2 t) =>
    jsonQuote k ++ ":" ++ jsonRender v ++ "," ++ jsonRenderObj (.cons k2 v2 t)

end

/-- Build a `JsonList` from a Lean list. -/
def JsonList.ofList : List Json → JsonList
  | [] => .nil
  | x :: t => .cons x (JsonList.ofList t)

/-- Build `JsonFields` from a Lean association list. -/
def JsonFields.ofList : List (String × Json) → JsonFields
  | [] => .nil
  | (k, v) :: t => .cons k v (JsonFields.ofList t)

/-- `function` part of a Groq tool call: `{name, arguments}` where
`arguments` is a JSON-encoded string chosen by the model. -/
structure ToolFunction where
  name : String
  arguments : String
deriving Repr, DecidableEq

/-- One tool-call request from the model: `{id, type, function}`. -/
structure ToolCall where
  id : String
  type : String
  function : ToolFunction
deriving Repr, DecidableEq

/-- JSON form of a tool call, in the field order the endpoint uses. -/
def ToolCall.toJson (tc : ToolCall) : Json :=
  .obj (.ofList
    [("id", .str tc.id), ("type", .str tc.type),
     ("function", .obj (.ofList
       [("name", .str tc.function.name),
        ("arguments", .str tc.function.arguments)]))])

/-- One entry of `this.messageHistory`, as built by `addToHistory`:
`{role, content, timestamp, ...(toolCalls && {toolCalls})}`.  The
`toolResults` parameter of `addToHistory` is never passed non-null by any
caller in the source, so the field is omitted from the model. -/
structure Message where
  role : String
  content : String
  timestamp : Nat
  toolCalls : Option (List ToolCall)
deriving Repr, DecidableEq

/-- JSON form of a history message: key insertion order is
`role`, `content`, `timestamp`, then `toolCalls` when present. -/
def Message.toJson (m : Message) : Json :=
  .obj (.ofList
    ([("role", .str m.role), ("content", .str m.content),
      ("timestamp", .num m.timestamp)] ++
     (match m.toolCalls with
      | none => []
      | some tcs => [("toolCalls", .arr (.ofList (tcs.map ToolCall.toJson)))])))

/-- `JSON.stringify(this.messageHistory)`. -/
def historyJson (h : List Message) : Json :=
  .arr (.ofList (h.map Message.toJson))

/-- Registered tool entry as the agent keeps it in `this.tools`
(the `execute` function lives behind the `Exec` oracle). -/
structure ToolSpec where
  description : Option String
  inputSchema : Option Json

/-- Default input schema used when a tool declares none. -/
def defaultSchema : Json :=
  .obj (.ofList
    [("type", .str "object"), ("properties", .obj .nil),
     ("required", .arr .nil)])

/-- `getGroqToolDefinitions`: `{type:"function", function:{name,
description, parameters}}` for each registered tool, in registration
order (JS `Map` preserves insertion order). -/
def getGroqToolDefinitions (tools : List (String × ToolSpec)) : List Json :=
  tools.map fun p =>
    .obj (.ofList
      [("type", .str "function"),
       ("function", .obj (.ofList
         [("name", .str p.1),
          ("description", .str (p.2.description.getD ("Execute " ++ p.1))),
          ("parameters", p.2.inputSchema.getD defaultSchema)]))])

/-- The agent configuration after the constructor merges `{...defaults,
...config}`. -/
structure AgentConfig where
  model : String
  maxTokens : Nat
  temperature : ℚ
  apiKey : String
  baseURL : String
  maxHistoryLength : Nat
  contextWindowLimit : Nat
deriving Repr

/-- Constructor defaults of `CoreAgent`. -/
def defaultConfig : AgentConfig :=
  { model := "llama3-8b-8192", maxTokens := 4000, temperature := mkRat 1 10,
    apiKey := "", baseURL := "https://api.groq.com/openai/v1/chat/completions",
    maxHistoryLength := 50, contextWindowLimit := 8192 }

/-- `this.metrics`. -/
structure Metrics where
  totalRequests : Nat
  totalTokens : Nat
  averageResponseTime : ℚ
  successRate : ℚ
deriving Repr

/-- Metrics as initialised by the constructor. -/
def initialMetrics : Metrics :=
  { totalRequests := 0, totalTokens := 0, averageResponseTime := 0,
    successRate := 0 }

/-- A session snapshot, as built by `saveSession`. -/
structure Session where
  id : String
  timestamp : Nat
  messageHistory : List Message
  systemPrompt : String
  config : AgentConfig
deriving Repr

/-- The mutable state of a `CoreAgent` instance.  `clock` models
`Date.now()` as a monotone counter. -/
structure AgentState where
  config : AgentConfig
  messageHistory : List Message
  tools : List (String × ToolSpec)
  systemPrompt : String
  metrics : Metrics
  activeSession : Option Session
  clock : Nat

/-- A fresh `CoreAgent` with its merged configuration. -/
def mkAgent (cfg : AgentConfig) : AgentState :=
  { config := cfg, messageHistory := [], tools := [], systemPrompt := "",
    metrics := initialMetrics, activeSession := none, clock := 0 }

/-- `addToHistory(role, content, toolCalls)`: pushes the stamped message
and returns it together with the new state. -/
def appendMsg (st : AgentState) (role content : String)
    (toolCalls : Option (List ToolCall)) : AgentState × Message :=
  let m : Message :=
    { role := role, content := content, timestamp := st.clock,
      toolCalls := toolCalls }
  ({ st with messageHistory := st.messageHistory ++ [m],
             clock := st.clock + 1 }, m)

/-- A message of the outbound `messages` array.  `tool_call_id` is only
present on tool-result messages (`handleGroqToolCalls`). -/
structure ApiMessage where
  role : String
  tool_call_id : Option String
  content : String
deriving Repr, DecidableEq

/-- JSON form of an outbound message, keys in object-literal order. -/
def ApiMessage.toJson (m : ApiMessage) : Json :=
  match m.tool_call_id with
  | none => .obj (.ofList [("role", .str m.role), ("content", .str m.content)])
  | some i => .obj (.ofList
      [("role", .str m.role), ("tool_call_id", .str i),
       ("content", .str m.content)])

/-- `formatMessagesForAPI`: drop `system`-role entries from the raw log
and keep only `{role, content}`. -/
def formatMessagesForAPI (history : List Message) : List ApiMessage :=
  (history.filter (fun m => m.role ≠ "system")).map fun m =>
    { role := m.role, tool_call_id := none, content := m.content }

/-- The outbound request payload built by `buildAPIRequest`. -/
structure ApiRequest where
  model : String
  max_tokens : Nat
  temperature : ℚ
  messages : List ApiMessage
  tools : Option (List Json)

/-- `JSON.stringify(request)`, keys in object-literal order with `tools`
spread in only when some tool is registered. -/
def ApiRequest.toJson (r : ApiRequest) : Json :=
  .obj (.ofList
    ([("model", .str r.model), ("max_tokens", .num r.max_tokens),
      ("temperature", .num r.temperature),
      ("messages", .arr (.ofList (r.messages.map ApiMessage.toJson)))] ++
     (match r.tools with
      | none => []
      | some ts => [("tools", .arr (.ofList ts))])))

/-- `buildAPIRequest` (the `options` parameter of the source is unused in
its body and therefore omitted).  The emergency size check
`JSON.stringify(request).length / 3.5 > contextWindowLimit * 0.9` is
written as the exactly equivalent integer comparison
`20 * length > 63 * limit` (both sides scaled by 70). -/
def buildAPIRequest (st : AgentState) : ApiRequest :=
  let messages := formatMessagesForAPI st.messageHistory
  let messages :=
    if st.systemPrompt ≠ "" then
      { role := "system", tool_call_id := none,
        content := st.systemPrompt } :: messages
    else messages
  let request : ApiRequest :=
    { model := st.config.model,
      max_tokens := min st.config.maxTokens 2048,
      temperature := st.config.temperature,
      messages := messages,
      tools :=
        if st.tools.length > 0 then some (getGroqToolDefinitions st.tools)
        else none }
  if 20 * (jsonRender request.toJson).length >
      63 * st.config.contextWindowLimit then
    let emergencyMessages := messages.drop (messages.length - 3)
    let emergencyMessages :=
      if st.systemPrompt ≠ "" ∧
          emergencyMessages.head?.map (fun m => m.role) ≠ some "system" then
        { role := "system", tool_call_id := none,
          content := st.systemPrompt.take 500 } :: emergencyMessages
      else emergencyMessages
    { request with messages := emergencyMessages }
  else request

/-- Character count whose division by 3.5 is the token estimate of
`manageContextWindow` (message log + system prompt + tool schemas). -/
def estimateChars (st : AgentState) : Nat :=
  (jsonRender (historyJson st.messageHistory)).length +
  (if st.systemPrompt ≠ "" then st.systemPrompt.length else 0) +
  (if st.tools.length > 0 then
    (jsonRender (.arr (.ofList (getGroqToolDefinitions st.tools)))).length
  else 0)

/-- `manageContextWindow`: prune the raw log to the newest
`max(5, floor(maxHistoryLength / 3))` messages when the token estimate
exceeds 60% of the context window.  The float test
`chars / 3.5 > limit * 0.6` is written as the exactly equivalent integer
comparison `10 * chars > 21 * limit` (both sides scaled by 35). -/
def manageContextWindow (st : AgentState) : AgentState :=
  if 10 * estimateChars st > 21 * st.config.contextWindowLimit then
    let messagesToKeep := max 5 (st.config.maxHistoryLength / 3)
    { st with messageHistory :=
        st.messageHistory.drop (st.messageHistory.length - messagesToKeep) }
  else st

/-- `updateMetrics(startTime, success)`, with the elapsed wall-clock time
passed in directly as `responseTime`. -/
def updateMetrics (m : Metrics) (responseTime : ℚ) (success : Bool) :
    Metrics :=
  let n : ℚ := (m.totalRequests : ℚ) + 1
  { m with
    totalRequests := m.totalRequests + 1,
    averageResponseTime :=
      (m.averageResponseTime * (n - 1) + responseTime) / n,
    successRate :=
      if success then (m.successRate * (n - 1) + 100) / n
      else (m.successRate * (n - 1)) / n }

/-- `saveSession(sessionId)`: snapshot the log, prompt and config, store
it as the active session and return it. -/
def saveSession (st : AgentState) (sessionId : String) :
    AgentState × Session :=
  let session : Session :=
    { id := sessionId, timestamp := st.clock,
      messageHistory := st.messageHistory,
      systemPrompt := st.systemPrompt, config := st.config }
  ({ st with activeSession := some session }, session)

/-- `loadSession(session)`: replace the log and prompt wholesale. -/
def loadSession (st : AgentState) (s : Session) : AgentState :=
  { st with messageHistory := s.messageHistory,
            systemPrompt := s.systemPrompt, activeSession := some s }

/-- The `message` of a response choice: `{content?, tool_calls?}`.
`none` models a null/absent field. -/
structure RespMessage where
  content : Option String
  tool_calls : Option (List ToolCall)
deriving Repr, DecidableEq

/-- One element of `response.choices`. -/
structure Choice where
  message : RespMessage
deriving Repr, DecidableEq

/-- The decoded body of a successful chat-completion response. -/
structure ApiResponse where
  choices : List Choice
  usage : Option Json

/-- JS truthiness of a nullable string (`null`, `undefined` and `""` are
falsy). -/
def jsTruthy : Option String → Bool
  | none => false
  | some s => s ≠ ""

/-- Errors a turn can reject with. -/
inductive AgentError where
  | invalidInput
  | apiError (status : Nat) (message : String)
  | emptyChoices
  | outOfFuel
deriving Repr, DecidableEq

/-- What `processMessage` resolves with. -/
inductive RespResult where
  | text (content : String) (usage : Option Json)
  | unknown (message : RespMessage) (usage : Option Json)

/-- Observable side effects of a turn, in program order. -/
inductive Event where
  | append (m : Message)
  | network (req : ApiRequest)

/-- The chat-completion endpoint: either a decoded 2xx body or
`(status, message)` of a non-2xx reply (which `callLLMAPI` turns into a
thrown `API Error`). -/
def Api : Type := ApiRequest → Except (Nat × String) ApiResponse

/-- Tool execution for one call: `JSON.parse(toolCall.function.arguments)`
followed by `executeTool`; an `error e` is any thrown error with message
`e` (parse failure, unknown tool, validation, or the tool itself). -/
def Exec : Type := ToolCall → Except String Json

/-- Content of one tool-result message: the stringified result on
success, `JSON.stringify({error: message})` on a thrown error. -/
def toolResultContent (exec : Exec) (tc : ToolCall) : String :=
  match exec tc with
  | .ok r => jsonRender r
  | .error e => jsonRender (.obj (.ofList [("error", .str e)]))

/-- One entry of the `toolMessages` array built by `handleGroqToolCalls`:
`{role: "tool", tool_call_id, content}`. -/
def toolApiMessage (exec : Exec) (tc : ToolCall) : ApiMessage :=
  { role := "tool", tool_call_id := some tc.id,
    content := toolResultContent exec tc }

/-- Result triple of one response-processing step: the settled value (or
propagated error), the state, and the effects in order. -/
structure StepRes where
  result : Except AgentError RespResult
  state : AgentState
  trace : List Event

/-- Lines 184–211 of `handleGroqToolCalls`: append the assistant message
carrying the calls, then one tool-result history message per call, in
call order (`toolMessages.forEach(msg => this.addToHistory(msg.role,
msg.content))` — note the history copy drops `tool_call_id`). -/
def appendToolStep (acc : AgentState × List Event) (tm : ApiMessage) :
    AgentState × List Event :=
  let q := appendMsg acc.1 tm.role tm.content none
  (q.1, acc.2 ++ [Event.append q.2])

/-- Lines 184-211 of `handleGroqToolCalls` continued: the initial
assistant append followed by the per-call folds. -/
def appendToolBatch (exec : Exec) (st : AgentState) (msg : RespMessage)
    (calls : List ToolCall) : AgentState × List Event :=
  let p := appendMsg st "assistant" (msg.content.getD "") (some calls)
  (calls.map (toolApiMessage exec)).foldl appendToolStep
    (p.1, [Event.append p.2])

/-- `processResponse` / `handleGroqToolCalls`, mutually recursive in the
source through the follow-up round trip; `fuel` bounds the number of
follow-up rounds (the source places no bound — `outOfFuel` is the
modelling cut-off for the unbounded loop). -/
def processResponseFuel (api : Api) (exec : Exec) :
    Nat → AgentState → ApiResponse → StepRes
  | fuel, st, resp =>
    match resp.choices.head? with
    | none =>
      -- `apiResponse.choices[0].message` throws a TypeError on an empty
      -- `choices` array; the throw propagates like any other error.
      { result := .error .emptyChoices, state := st, trace := [] }
    | some choice =>
      let msg := choice.message
      if jsTruthy msg.content then
        -- text branch: `if (message.content) { addToHistory; return }`
        let p := appendMsg st "assistant" (msg.content.getD "") none
        { result := .ok (.text (msg.content.getD "") resp.usage),
          state := p.1, trace := [Event.append p.2] }
      else
        match msg.tool_calls with
        | some calls =>
          if calls.length > 0 then
            let ab := appendToolBatch exec st msg calls
            let toolMsgs := calls.map (toolApiMessage exec)
            let followUp0 := buildAPIRequest ab.1
            let followUp :=
              { followUp0 with messages := followUp0.messages ++ toolMsgs }
            match api followUp with
            | .error e =>
              { result := .error (.apiError e.1 e.2), state := ab.1,
                trace := ab.2 ++ [Event.network followUp] }
            | .ok resp2 =>
              match fuel with
              | 0 =>
                { result := .error .outOfFuel, state := ab.1,
                  trace := ab.2 ++ [Event.network followUp] }
              | k + 1 =>
                let r := processResponseFuel api exec k ab.1 resp2
                { result := r.result, state := r.state,
                  trace := ab.2 ++ Event.network followUp :: r.trace }
          else
            { result := .ok (.unknown msg resp.usage), state := st,
              trace := [] }
        | none =>
          { result := .ok (.unknown msg resp.usage), state := st,
            trace := [] }

/-- `processMessage(userInput)`: validate, append the user message, prune,
build the request, call the endpoint, process the response; update the
metrics once on the way out (success or catch).  `input = none` models a
non-string argument. -/
def processMessage (api : Api) (exec : Exec) (fuel : Nat) (st : AgentState)
    (input : Option String) : StepRes :=
  if jsTruthy input = false then
    { result := .error .invalidInput,
      state := { st with metrics := updateMetrics st.metrics 0 false },
      trace := [] }
  else
    let p := appendMsg st "user" (input.getD "") none
    let userMsg := p.2
    let st2 := manageContextWindow p.1
    let req := buildAPIRequest st2
    match api req with
    | .error e =>
      let m1 := updateMetrics st2.metrics ((st2.clock - st.clock : Nat) : ℚ) false
      { result := .error (.apiError e.1 e.2),
        state := { st2 with metrics := m1 },
        trace := [Event.append userMsg, Event.network req] }
    | .ok resp =>
      let r := processResponseFuel api exec fuel st2 resp
      match r.result with
      | .ok v =>
        let m1 := updateMetrics r.state.metrics ((r.state.clock - st.clock : Nat) : ℚ) true
        { result := .ok v,
          state := { r.state with metrics := m1 },
          trace := Event.append userMsg :: Event.network req :: r.trace }
      | .error e =>
        let m1 := updateMetrics r.state.metrics ((r.state.clock - st.clock : Nat) : ℚ) false
        { result := .error e,
          state := { r.state with metrics := m1 },
          trace := Event.append userMsg :: Event.network req :: r.trace }

/-- Helper for `toolResultsCovered`: `seen` records whether an
assistant message carrying tool calls has occurred so far. -/
def toolResultsCoveredAux : Bool → List Message → Bool
  | _, [] => true
  | seen, m :: rest =>
    if m.role == "tool" then seen && toolResultsCoveredAux seen rest
    else toolResultsCoveredAux
      (seen || (m.role == "assistant" && m.toolCalls.isSome)) rest

/-- Round-atomicity check on a history: every `tool`-role result message
is preceded by some assistant message that carries tool calls.  (History
messages store no call id — `addToHistory(msg.role, msg.content)` drops
`tool_call_id` — so precedence by an assistant tool-call message is the
correspondence the log can express.) -/
def toolResultsCovered (h : List Message) : Bool :=
  toolResultsCoveredAux false h

/-- The tool-result history messages produced by one batch of calls, in
call order, with consecutive timestamps starting at `clock0`. -/
def batchResultMessages (exec : Exec) : Nat → List ToolCall → List Message
  | _, [] => []
  | clock0, tc :: rest =>
    { role := "tool", content := toolResultContent exec tc,
      timestamp := clock0, toolCalls := none } ::
      batchResultMessages exec (clock0 + 1) rest

/-- Number of `system`-role entries of an outbound messages array. -/
def countSystem (l : List ApiMessage) : Nat :=
  l.countP (fun m => m.role == "system")

/-- Whether an effect is the append of a `user`-role message. -/
def isUserAppend : Event → Bool
  | .append m => m.role == "user"
  | .network _ => false

/-- `recordOutcome` applied along a list of (elapsed time, success flag)
samples. -/
def applyOutcomes (m : Metrics) (l : List (ℚ × Bool)) : Metrics :=
  l.foldl (fun acc p => updateMetrics acc p.1 p.2) m

/-- A top-level operation against one agent: a full `processMessage`
turn, or a bare metrics update. -/
inductive AgentOp where
  | turn (api : Api) (exec : Exec) (fuel : Nat) (input : Option String)
  | outcome (responseTime : ℚ) (success : Bool)

/-- Run one operation. -/
def applyOp (st : AgentState) : AgentOp → AgentState
  | .turn api exec fuel input => (processMessage api exec fuel st input).state
  | .outcome rt s => { st with metrics := updateMetrics st.metrics rt s }

/- Concrete fixtures used by counterexamples and witnesses. -/

/-- A fresh agent over the constructor defaults. -/
def agent0 : AgentState := mkAgent defaultConfig

/-- A concrete tool call for the `echo` tool. -/
def tcW : ToolCall :=
  { id := "call_1", type := "function",
    function := { name := "echo", arguments := "\x7b\"msg\":\"hi\"\x7d" } }

/-- A concrete tool call whose execution fails. -/
def tcBad : ToolCall :=
  { id := "call_2", type := "function",
    function := { name := "missing", arguments := "" } }

/-- An endpoint that always replies HTTP 429. -/
def apiW : Api := fun _ => .error (429, "Too Many Requests")

/-- A tool executor: `call_1` succeeds with `{msg: "hi"}`, anything else
throws `boom`. -/
def execW : Exec := fun tc =>
  if tc.id == "call_1" then .ok (.obj (.ofList [("msg", .str "hi")]))
  else .error "boom"

/-- A response whose message carries both a non-empty text body and a
tool call. -/
def c1Msg : RespMessage := { content := some "hello", tool_calls := some [tcW] }

/-- The response wrapping `c1Msg`. -/
def c1Resp : ApiResponse := { choices := [{ message := c1Msg }], usage := none }

/-- An assistant message carrying tool calls, for witness states. -/
def msgW : RespMessage := { content := none, tool_calls := some [tcW, tcBad] }

/-- Config that makes the pruning threshold tiny (both fields flow in
through the constructor `{...defaults, ...config}` merge). -/
def c3Config : AgentConfig :=
  { defaultConfig with contextWindowLimit := 10, maxHistoryLength := 6 }

/-- A well-formed log: a completed tool round followed by ordinary text
turns.  7 messages; pruning keeps `max(5, 6/3) = 5`. -/
def c3History : List Message :=
  [{ role := "user", content := "hi", timestamp := 0, toolCalls := none },
   { role := "assistant", content := "", timestamp := 1, toolCalls := some [tcW] },
   { role := "tool", content := "\x7b\"msg\":\"hi\"\x7d", timestamp := 2, toolCalls := none },
   { role := "assistant", content := "done", timestamp := 3, toolCalls := none },
   { role := "user", content := "next", timestamp := 4, toolCalls := none },
   { role := "assistant", content := "sure", timestamp := 5, toolCalls := none },
   { role := "user", content := "more", timestamp := 6, toolCalls := none }]

/-- The conversation state on which pruning slices through the middle of
the tool round. -/
def c3State : AgentState :=
  { config := c3Config, messageHistory := c3History, tools := [],
    systemPrompt := "", metrics := initialMetrics, activeSession := none,
    clock := 7 }

/-- A state with a system prompt, for the C8 witness. -/
def c8State : AgentState :=
  { agent0 with systemPrompt := "You are a helpful assistant",
                messageHistory := c3History }

/-- Two outcome samples, and the same samples in swapped order. -/
def outcomesW : List (ℚ × Bool) := [(5, true), (3, false)]

/-- `outcomesW` reordered. -/
def outcomesW2 : List (ℚ × Bool) := [(3, false), (5, true)]

/- ------------------------------------------------------------------ -/
/- Theorems.                                                           -/
/- ------------------------------------------------------------------ -/

lemma updateMetrics_totalTokens (m : Metrics) (rt : ℚ) (s : Bool) :
    (updateMetrics m rt s).totalTokens = m.totalTokens := rfl

lemma appendMsg_metrics (st : AgentState) (r c : String)
    (t : Option (List ToolCall)) : (appendMsg st r c t).1.metrics = st.metrics :=
  rfl

lemma manageContextWindow_metrics (st : AgentState) :
    (manageContextWindow st).metrics = st.metrics := by
  unfold manageContextWindow
  split <;> rfl

lemma manageContextWindow_systemPrompt (st : AgentState) :
    (manageContextWindow st).systemPrompt = st.systemPrompt := by
  unfold manageContextWindow
  split <;> rfl

lemma foldl_appendToolStep_metrics :
    ∀ (l : List ApiMessage) (acc : AgentState × List Event),
    ((l.foldl appendToolStep acc).1).metrics = acc.1.metrics := by
  intro l
  induction l with
  | nil => intro acc; rfl
  | cons x xs ih => intro acc; rw [List.foldl_cons, ih]; rfl

lemma appendToolBatch_metrics (exec : Exec) (st : AgentState)
    (msg : RespMessage) (calls : List ToolCall) :
    (appendToolBatch exec st msg calls).1.metrics = st.metrics := by
  simp only [appendToolBatch]
  rw [foldl_appendToolStep_metrics]
  rfl

lemma processResponseFuel_metrics (api : Api) (exec : Exec) :
    ∀ (fuel : Nat) (st : AgentState) (resp : ApiResponse),
    (processResponseFuel api exec fuel st resp).state.metrics = st.metrics := by
  intro fuel
  induction fuel with
  | zero =>
    intro st resp
    rw [processResponseFuel]
    cases ht : resp.choices.head? with
    | none => rfl
    | some choice =>
      dsimp only
      by_cases hc : jsTruthy choice.message.content = true
      · rw [if_pos hc]
        rfl
      · rw [if_neg hc]
        split
        · rename_i calls heq
          by_cases hl : calls.length > 0
          · rw [if_pos hl]
            split
            · exact appendToolBatch_metrics exec st choice.message calls
            · exact appendToolBatch_metrics exec st choice.message calls
          · rw [if_neg hl]
        · rfl
  | succ k ih =>
    intro st resp
    rw [processResponseFuel]
    cases ht : resp.choices.head? with
    | none => rfl
    | some choice =>
      dsimp only
      by_cases hc : jsTruthy choice.message.content = true
      · rw [if_pos hc]
        rfl
      · rw [if_neg hc]
        split
        · rename_i calls heq
          by_cases hl : calls.length > 0
          · rw [if_pos hl]
            split
            · exact appendToolBatch_metrics exec st choice.message calls
            · rw [ih]
              exact appendToolBatch_metrics exec st choice.message calls
          · rw [if_neg hl]
        · rfl

lemma processMessage_totalTokens (api : Api) (exec : Exec) (fuel : Nat)
    (st : AgentState) (input : Option String) :
    (processMessage api exec fuel st input).state.metrics.totalTokens =
      st.metrics.totalTokens := by
  simp only [processMessage]
  split
  · rfl
  · split
    · simp [updateMetrics_totalTokens, manageContextWindow_metrics,
        appendMsg_metrics]
    · split <;>
        simp [updateMetrics_totalTokens, processResponseFuel_metrics,
          manageContextWindow_metrics, appendMsg_metrics]

/-- Claim C7: saving a session and loading the returned snapshot restores
the message log and the system prompt of the state at save time. -/
theorem C7_session_roundtrip (st : AgentState) (sessionId : String) :
    (loadSession (saveSession st sessionId).1
        (saveSession st sessionId).2).messageHistory = st.messageHistory ∧
    (loadSession (saveSession st sessionId).1
        (saveSession st sessionId).2).systemPrompt = st.systemPrompt :=
  ⟨rfl, rfl⟩

/-- Claim C9: for every state, the outbound request's `max_tokens` is
`min(config.maxTokens, 2048)`, hence never exceeds 2048, on both the
normal and the emergency-pruning path. -/
theorem C9_max_tokens_clamped (st : AgentState) :
    (buildAPIRequest st).max_tokens = min st.config.maxTokens 2048 ∧
    (buildAPIRequest st).max_tokens ≤ 2048 := by
  have h : (buildAPIRequest st).max_tokens = min st.config.maxTokens 2048 := by
    simp only [buildAPIRequest]
    repeat (first | rfl | split)
  exact ⟨h, h ▸ min_le_right _ _⟩

lemma applyOutcomes_rate :
    ∀ (l : List (ℚ × Bool)) (m : Metrics) (n k : ℕ), k ≤ n →
    m.totalRequests = n → m.successRate = 100 * (k : ℚ) / (n : ℚ) →
    (applyOutcomes m l).totalRequests = n + l.length ∧
    (applyOutcomes m l).successRate =
      100 * ((k + l.countP (fun p => p.2) : ℕ) : ℚ) /
        ((n + l.length : ℕ) : ℚ) := by
  intro l
  induction l with
  | nil =>
    intro m n k _ hn hr
    constructor
    · simpa [applyOutcomes] using hn
    · simpa [applyOutcomes] using hr
  | cons p rest ih =>
    intro m n k hk hn hr
    have hmul : m.successRate * (n : ℚ) = 100 * (k : ℚ) := by
      rw [hr]
      rcases Nat.eq_zero_or_pos n with h0 | hpos
      · have hk0 : k = 0 := by omega
        subst h0; subst hk0; simp
      · have hne : (n : ℚ) ≠ 0 := Nat.cast_ne_zero.mpr (by omega)
        exact div_mul_cancel₀ _ hne
    have htot : (updateMetrics m p.1 p.2).totalRequests = n + 1 := by
      simp [updateMetrics, hn]
    cases hb : p.2 with
    | false =>
      have hrate : (updateMetrics m p.1 p.2).successRate =
          100 * ((k : ℕ) : ℚ) / (((n + 1 : ℕ)) : ℚ) := by
        simp only [updateMetrics, hb, Bool.false_eq_true, if_false, hn]
        push_cast
        rw [add_sub_cancel_right, hmul]
      have hrec := ih (updateMetrics m p.1 p.2) (n + 1) k (by omega) htot hrate
      constructor
      · have h1 := hrec.1
        simp only [applyOutcomes, List.foldl_cons] at h1 ⊢
        rw [h1, List.length_cons]
        omega
      · have h2 := hrec.2
        simp only [applyOutcomes, List.foldl_cons] at h2 ⊢
        rw [h2, List.countP_cons, List.length_cons]
        simp only [hb, Bool.false_eq_true, if_false]
        push_cast
        ring_nf
    | true =>
      have hrate : (updateMetrics m p.1 p.2).successRate =
          100 * ((k + 1 : ℕ) : ℚ) / (((n + 1 : ℕ)) : ℚ) := by
        simp only [updateMetrics, hb, if_true, hn]
        push_cast
        rw [add_sub_cancel_right, hmul]
        ring
      have hrec := ih (updateMetrics m p.1 p.2) (n + 1) (k + 1) (by omega)
        htot hrate
      constructor
      · have h1 := hrec.1
        simp only [applyOutcomes, List.foldl_cons] at h1 ⊢
        rw [h1, List.length_cons]
        omega
      · have h2 := hrec.2
        simp only [applyOutcomes, List.foldl_cons] at h2 ⊢
        rw [h2, List.countP_cons, List.length_cons]
        simp only [hb, if_true]
        push_cast
        ring

/-- Claim C6: applying the metrics update along any non-empty list of
success flags ends with `successRate = 100 * (count of true) / n`
exactly, and the rate is invariant under permuting the samples. -/
theorem C6_success_rate (l l2 : List (ℚ × Bool)) (_h : l ≠ [])
    (hp : l.Perm l2) :
    (applyOutcomes initialMetrics l).successRate =
      100 * ((l.countP (fun p => p.2) : ℕ) : ℚ) / ((l.length : ℕ) : ℚ) ∧
    (applyOutcomes initialMetrics l2).successRate =
      (applyOutcomes initialMetrics l).successRate := by
  have h0 : initialMetrics.successRate = 100 * ((0 : ℕ) : ℚ) / ((0 : ℕ) : ℚ) := by
    simp [initialMetrics]
  have h1 := (applyOutcomes_rate l initialMetrics 0 0 (le_refl 0) rfl h0).2
  have h2 := (applyOutcomes_rate l2 initialMetrics 0 0 (le_refl 0) rfl h0).2
  simp only [Nat.zero_add] at h1 h2
  refine ⟨h1, ?_⟩
  rw [h1, h2, hp.countP_eq, hp.length_eq]

/-- Witness for C6 at two concrete sample lists. -/
theorem C6_witness :
    outcomesW ≠ [] ∧ outcomesW.Perm outcomesW2 ∧
    (applyOutcomes initialMetrics outcomesW).successRate =
      100 * ((outcomesW.countP (fun p => p.2) : ℕ) : ℚ) /
        ((outcomesW.length : ℕ) : ℚ) ∧
    (applyOutcomes initialMetrics outcomesW2).successRate =
      (applyOutcomes initialMetrics outcomesW).successRate := by
  have hne : outcomesW ≠ [] := by simp [outcomesW]
  have hp : outcomesW.Perm outcomesW2 := List.Perm.swap (3, false) (5, true) []
  obtain ⟨a, b⟩ := C6_success_rate outcomesW outcomesW2 hne hp
  exact ⟨hne, hp, a, b⟩

/-- Claim C10: `totalTokens` is a frame field — initialized to 0 and
untouched by any sequence of turns and metric updates. -/
theorem C10_total_tokens_frame (cfg : AgentConfig) (ops : List AgentOp) :
    (ops.foldl applyOp (mkAgent cfg)).metrics.totalTokens = 0 := by
  have hgen : ∀ (l : List AgentOp) (st : AgentState),
      (l.foldl applyOp st).metrics.totalTokens = st.metrics.totalTokens := by
    intro l
    induction l with
    | nil => intro st; rfl
    | cons op rest ih =>
      intro st
      rw [List.foldl_cons, ih]
      cases op with
      | turn api exec fuel input =>
        exact processMessage_totalTokens api exec fuel st input
      | outcome rt s => rfl
  rw [hgen]
  rfl

/-- Claim C1 as stated fails: on a response whose message carries both a
non-empty text body and a tool call, `processResponse` returns the text
as the final answer and performs no tool execution at all — the only
effect is the assistant text append; no tool-result append and no
follow-up network call happen. -/
theorem C1_counterexample :
    jsTruthy c1Msg.content = true ∧ c1Msg.tool_calls = some [tcW] ∧
    (processResponseFuel apiW execW 5 agent0 c1Resp).result =
      .ok (.text "hello" none) ∧
    (processResponseFuel apiW execW 5 agent0 c1Resp).trace =
      [Event.append { role := "assistant", content := "hello",
                      timestamp := 0, toolCalls := none }] :=
  ⟨rfl, rfl, rfl, rfl⟩

/-- Claim C1, amended: whenever the first choice's message has a truthy
(non-null, non-empty) text body, `processResponse` appends the text as an
assistant message and returns it as the final answer, executing no tool
calls — even when the message also carries tool calls; tool calls only
run when the text body is null or empty. -/
theorem C1_amended_text_wins (api : Api) (exec : Exec) (fuel : Nat)
    (st : AgentState) (resp : ApiResponse) (choice : Choice) (s : String)
    (h1 : resp.choices.head? = some choice)
    (h2 : choice.message.content = some s) (h3 : s ≠ "") :
    (processResponseFuel api exec fuel st resp).result =
      .ok (.text s resp.usage) ∧
    (processResponseFuel api exec fuel st resp).state.messageHistory =
      st.messageHistory ++
        [{ role := "assistant", content := s, timestamp := st.clock,
           toolCalls := none }] ∧
    (processResponseFuel api exec fuel st resp).trace =
      [Event.append { role := "assistant", content := s,
                      timestamp := st.clock, toolCalls := none }] := by
  have ht : jsTruthy (some s) = true := by
    simpa [jsTruthy] using h3
  rw [processResponseFuel]
  cases fuel with
  | zero => rw [h1]; simp [h2, ht, appendMsg]
  | succ k => rw [h1]; simp [h2, ht, appendMsg]

/-- Witness for the amended C1 at a concrete response. -/
theorem C1_amended_witness :
    c1Resp.choices.head? = some { message := c1Msg } ∧
    c1Msg.content = some "hello" ∧ "hello" ≠ "" ∧
    (processResponseFuel apiW execW 5 agent0 c1Resp).result =
      .ok (.text "hello" c1Resp.usage) := by
  have h := C1_amended_text_wins apiW execW 5 agent0 c1Resp
    { message := c1Msg } "hello" rfl rfl (by decide)
  exact ⟨rfl, rfl, by decide, h.1⟩

lemma foldl_appendToolStep_history (exec : Exec) :
    ∀ (calls : List ToolCall) (acc : AgentState × List Event),
    (((calls.map (toolApiMessage exec)).foldl appendToolStep acc).1).messageHistory =
      acc.1.messageHistory ++ batchResultMessages exec acc.1.clock calls := by
  intro calls
  induction calls with
  | nil => intro acc; simp [batchResultMessages]
  | cons tc rest ih =>
    intro acc
    rw [List.map_cons, List.foldl_cons, ih]
    simp [appendToolStep, appendMsg, toolApiMessage, batchResultMessages]

/-- Claim C2: handling a batch of N tool calls appends the assistant
tool-call message followed by exactly N tool-result messages, in call
order; a thrown error in one call yields a result message whose content
is the serialization of `{error: message}` and does not affect the
others (the batch list is a map over all calls). -/
theorem C2_tool_batch_appends (exec : Exec) (st : AgentState)
    (msg : RespMessage) (calls : List ToolCall) :
    (appendToolBatch exec st msg calls).1.messageHistory =
      st.messageHistory ++
        { role := "assistant", content := msg.content.getD "",
          timestamp := st.clock, toolCalls := some calls } ::
        batchResultMessages exec (st.clock + 1) calls ∧
    (batchResultMessages exec (st.clock + 1) calls).length = calls.length ∧
    (∀ tc e, exec tc = .error e → toolResultContent exec tc =
      jsonRender (.obj (.ofList [("error", .str e)]))) := by
  refine ⟨?_, ?_, ?_⟩
  · simp only [appendToolBatch]
    rw [foldl_appendToolStep_history]
    simp [appendMsg]
  · have hlen : ∀ (c : Nat) (l : List ToolCall),
        (batchResultMessages exec c l).length = l.length := by
      intro c l
      induction l generalizing c with
      | nil => simp [batchResultMessages]
      | cons tc rest ih => simp [batchResultMessages, ih]
    exact hlen _ _
  · intro tc e he
    simp [toolResultContent, he]

/-- Witness for C2 on a two-call batch whose second call throws. -/
theorem C2_witness :
    (appendToolBatch execW agent0 msgW [tcW, tcBad]).1.messageHistory =
      agent0.messageHistory ++
        { role := "assistant", content := msgW.content.getD "",
          timestamp := agent0.clock, toolCalls := some [tcW, tcBad] } ::
        batchResultMessages execW (agent0.clock + 1) [tcW, tcBad] ∧
    execW tcBad = .error "boom" ∧
    toolResultContent execW tcBad =
      jsonRender (.obj (.ofList [("error", .str "boom")])) := by
  obtain ⟨h1, h2, h3⟩ := C2_tool_batch_appends execW agent0 msgW [tcW, tcBad]
  exact ⟨h1, rfl, h3 tcBad "boom" rfl⟩

set_option maxRecDepth 100000 in
/-- Claim C3 is violated by the code: on `c3State` (a well-formed log
whose third message is the tool result of the second message's tool
call), `manageContextWindow` keeps the newest five messages by raw
count, so the surviving log starts with the tool-result message while
its assistant tool-call message was pruned.  The system prompt is indeed
untouched, but pruning is not round-atomic. -/
theorem C3_pruning_orphans_tool_result :
    toolResultsCovered c3State.messageHistory = true ∧
    (manageContextWindow c3State).systemPrompt = c3State.systemPrompt ∧
    (manageContextWindow c3State).messageHistory.head?.map
      (fun m => m.role) = some "tool" ∧
    toolResultsCovered (manageContextWindow c3State).messageHistory = false := by
  refine ⟨by decide, ?_, by decide, by decide⟩
  exact manageContextWindow_systemPrompt c3State

lemma batchResultMessages_no_user (exec : Exec) :
    ∀ (calls : List ToolCall) (c : Nat),
    ((batchResultMessages exec c calls).map Event.append).countP
      isUserAppend = 0 := by
  intro calls
  induction calls with
  | nil => intro c; simp [batchResultMessages]
  | cons tc rest ih =>
    intro c
    simp [batchResultMessages, List.countP_cons, isUserAppend, ih]

lemma foldl_appendToolStep_trace (exec : Exec) :
    ∀ (calls : List ToolCall) (acc : AgentState × List Event),
    ((calls.map (toolApiMessage exec)).foldl appendToolStep acc).2 =
      acc.2 ++ (batchResultMessages exec acc.1.clock calls).map Event.append := by
  intro calls
  induction calls with
  | nil => intro acc; simp [batchResultMessages]
  | cons tc rest ih =>
    intro acc
    rw [List.map_cons, List.foldl_cons, ih]
    simp [appendToolStep, appendMsg, toolApiMessage, batchResultMessages]

lemma appendToolBatch_trace (exec : Exec) (st : AgentState)
    (msg : RespMessage) (calls : List ToolCall) :
    (appendToolBatch exec st msg calls).2 =
      Event.append { role := "assistant", content := msg.content.getD "",
                     timestamp := st.clock, toolCalls := some calls } ::
      (batchResultMessages exec (st.clock + 1) calls).map Event.append := by
  simp only [appendToolBatch]
  rw [foldl_appendToolStep_trace]
  simp [appendMsg]

lemma batchResultMessages_roles (exec : Exec) :
    ∀ (calls : List ToolCall) (c : Nat) (m : Message),
    m ∈ batchResultMessages exec c calls → m.role = "tool" := by
  intro calls
  induction calls with
  | nil => intro c m hm; simp [batchResultMessages] at hm
  | cons tc rest ih =>
    intro c m hm
    simp only [batchResultMessages, List.mem_cons] at hm
    rcases hm with hm | hm
    · rw [hm]
    · exact ih _ _ hm

lemma appendToolBatch_no_user (exec : Exec) (st : AgentState)
    (msg : RespMessage) (calls : List ToolCall) :
    ((appendToolBatch exec st msg calls).2).countP isUserAppend = 0 := by
  rw [appendToolBatch_trace, List.countP_cons]
  have h1 : ((batchResultMessages exec (st.clock + 1) calls).map
      Event.append).countP isUserAppend = 0 := by
    rw [List.countP_eq_zero]
    intro a ha
    obtain ⟨x, hx, rfl⟩ := List.mem_map.mp ha
    have hr := batchResultMessages_roles exec calls (st.clock + 1) x hx
    simp [isUserAppend, hr]
  rw [h1]
  simp [isUserAppend]

lemma processResponseFuel_no_user (api : Api) (exec : Exec) :
    ∀ (fuel : Nat) (st : AgentState) (resp : ApiResponse),
    ((processResponseFuel api exec fuel st resp).trace).countP
      isUserAppend = 0 := by
  intro fuel
  induction fuel with
  | zero =>
    intro st resp
    rw [processResponseFuel]
    cases ht : resp.choices.head? with
    | none => rfl
    | some choice =>
      dsimp only
      by_cases hc : jsTruthy choice.message.content = true
      · rw [if_pos hc]
        simp [isUserAppend, appendMsg, List.countP_cons]
      · rw [if_neg hc]
        split
        · rename_i calls heq
          by_cases hl : calls.length > 0
          · rw [if_pos hl]
            split
            · simp [List.countP_append, appendToolBatch_no_user,
                List.countP_cons, isUserAppend]
            · simp [List.countP_append, appendToolBatch_no_user,
                List.countP_cons, isUserAppend]
          · rw [if_neg hl]
            rfl
        · rfl
  | succ k ih =>
    intro st resp
    rw [processResponseFuel]
    cases ht : resp.choices.head? with
    | none => rfl
    | some choice =>
      dsimp only
      by_cases hc : jsTruthy choice.message.content = true
      · rw [if_pos hc]
        simp [isUserAppend, appendMsg, List.countP_cons]
      · rw [if_neg hc]
        split
        · rename_i calls heq
          by_cases hl : calls.length > 0
          · rw [if_pos hl]
            split
            · simp [List.countP_append, appendToolBatch_no_user,
                List.countP_cons, isUserAppend]
            · simp [List.countP_append, appendToolBatch_no_user,
                List.countP_cons, isUserAppend, ih]
          · rw [if_neg hl]
            rfl
        · rfl

/-- Claim C4: on a non-empty string input, the very first effect of the
turn is the append of exactly one `user`-role message carrying that
input — it precedes every network call, and no later effect of the turn
appends another `user` message. -/
theorem C4_user_append_first (api : Api) (exec : Exec) (fuel : Nat)
    (st : AgentState) (s : String) (h : s ≠ "") :
    (processMessage api exec fuel st (some s)).trace.head? =
      some (Event.append { role := "user", content := s,
                           timestamp := st.clock, toolCalls := none }) ∧
    ((processMessage api exec fuel st (some s)).trace.tail).countP
      isUserAppend = 0 := by
  have ht : ¬(jsTruthy (some s) = false) := by simp [jsTruthy, h]
  simp only [processMessage]
  rw [if_neg ht]
  split
  · constructor
    · simp [appendMsg]
    · simp [isUserAppend]
  · split
    · constructor
      · simp [appendMsg]
      · simp [List.countP_cons, isUserAppend, processResponseFuel_no_user]
    · constructor
      · simp [appendMsg]
      · simp [List.countP_cons, isUserAppend, processResponseFuel_no_user]

/-- Witness for C4 on a concrete input and a failing endpoint. -/
theorem C4_witness :
    "hi" ≠ "" ∧
    (processMessage apiW execW 1 agent0 (some "hi")).trace.head? =
      some (Event.append { role := "user", content := "hi", timestamp := 0,
                           toolCalls := none }) ∧
    ((processMessage apiW execW 1 agent0 (some "hi")).trace.tail).countP
      isUserAppend = 0 := by
  have h := C4_user_append_first apiW execW 1 agent0 "hi" (by decide)
  exact ⟨by decide, h.1, h.2⟩

/-- Claim C5: an invalid (non-string or empty) input rejects the turn
with `invalidInput` before any effect — no append, no network call; a
non-2xx endpoint reply rejects the turn with an `API Error` carrying the
status, and the only message appended in such a turn is the user
message — no assistant message is appended. -/
theorem C5_prefix_errors_propagate (api : Api) (exec : Exec) (fuel : Nat)
    (st : AgentState) :
    (∀ input, jsTruthy input = false →
      (processMessage api exec fuel st input).result = .error .invalidInput ∧
      (processMessage api exec fuel st input).trace = [] ∧
      (processMessage api exec fuel st input).state.messageHistory =
        st.messageHistory) ∧
    (∀ (s : String) (status : Nat) (emsg : String), s ≠ "" →
      (∀ req, api req = .error (status, emsg)) →
      (processMessage api exec fuel st (some s)).result =
        .error (.apiError status emsg) ∧
      (∀ m, Event.append m ∈ (processMessage api exec fuel st (some s)).trace →
        m.role = "user")) := by
  constructor
  · intro input hin
    simp only [processMessage]
    rw [if_pos hin]
    exact ⟨rfl, rfl, rfl⟩
  · intro s status emsg hs hfail
    have ht : ¬(jsTruthy (some s) = false) := by simp [jsTruthy, hs]
    have htr : (processMessage api exec fuel st (some s)).trace =
        [Event.append { role := "user", content := s, timestamp := st.clock,
                        toolCalls := none },
         Event.network (buildAPIRequest (manageContextWindow
           (appendMsg st "user" s none).1))] := by
      simp only [processMessage]
      rw [if_neg ht, hfail]
      rfl
    have hres : (processMessage api exec fuel st (some s)).result =
        .error (.apiError status emsg) := by
      simp only [processMessage]
      rw [if_neg ht, hfail]
    refine ⟨hres, ?_⟩
    intro m hm
    rw [htr] at hm
    rcases List.mem_cons.mp hm with hm1 | hm1
    · simp only [Event.append.injEq] at hm1
      rw [hm1]
    · simp at hm1

/-- Witness for C5: the empty input and a 429-only endpoint. -/
theorem C5_witness :
    jsTruthy (some "") = false ∧
    (processMessage apiW execW 1 agent0 (some "")).result =
      .error .invalidInput ∧
    "hi" ≠ "" ∧
    (processMessage apiW execW 1 agent0 (some "hi")).result =
      .error (.apiError 429 "Too Many Requests") := by
  have hA := (C5_prefix_errors_propagate apiW execW 1 agent0).1 (some "") rfl
  have hB := (C5_prefix_errors_propagate apiW execW 1 agent0).2 "hi" 429
    "Too Many Requests" (by decide) (fun req => rfl)
  exact ⟨rfl, hA.1, by decide, hB.1⟩

lemma formatMessagesForAPI_no_system (hist : List Message) :
    ∀ m ∈ formatMessagesForAPI hist, m.role ≠ "system" := by
  intro m hm
  simp only [formatMessagesForAPI, List.mem_map, List.mem_filter] at hm
  obtain ⟨a, ⟨_, ha2⟩, rfl⟩ := hm
  simpa using ha2

lemma emergencySlice_spec (p : String) (base : List ApiMessage)
    (h : p ≠ "") (hbase : ∀ m ∈ base, m.role ≠ "system") :
    (if p ≠ "" ∧
        Option.map (fun m => m.role)
          (List.drop (base.length + 1 - 3)
            ({ role := "system", tool_call_id := none, content := p } ::
              base)).head? ≠ some "system" then
      { role := "system", tool_call_id := none, content := p.take 500 } ::
        List.drop (base.length + 1 - 3)
          ({ role := "system", tool_call_id := none, content := p } :: base)
    else
      List.drop (base.length + 1 - 3)
        ({ role := "system", tool_call_id := none, content := p } :: base)) =
      { role := "system", tool_call_id := none, content := p } :: base ∨
    ∃ k,
      (if p ≠ "" ∧
          Option.map (fun m => m.role)
            (List.drop (base.length + 1 - 3)
              ({ role := "system", tool_call_id := none, content := p } ::
                base)).head? ≠ some "system" then
        { role := "system", tool_call_id := none, content := p.take 500 } ::
          List.drop (base.length + 1 - 3)
            ({ role := "system", tool_call_id := none, content := p } :: base)
      else
        List.drop (base.length + 1 - 3)
          ({ role := "system", tool_call_id := none, content := p } :: base)) =
        { role := "system", tool_call_id := none, content := p.take 500 } ::
          List.drop k base := by
  by_cases hc2 : p ≠ "" ∧
      Option.map (fun m => m.role)
        (List.drop (base.length + 1 - 3)
          ({ role := "system", tool_call_id := none, content := p } ::
            base)).head? ≠ some "system"
  · rw [if_pos hc2]
    cases hk : base.length + 1 - 3 with
    | zero =>
      rw [hk] at hc2
      simp at hc2
    | succ k =>
      rw [List.drop_succ_cons]
      right
      exact ⟨k, rfl⟩
  · rw [if_neg hc2]
    rw [not_and_or] at hc2
    rcases hc2 with hc2 | hc2
    · exact absurd h hc2
    · rw [not_not] at hc2
      cases hk : base.length + 1 - 3 with
      | zero =>
        left
        rfl
      | succ k =>
        exfalso
        rw [hk, List.drop_succ_cons] at hc2
        cases hem : base.drop k with
        | nil => rw [hem] at hc2; simp at hc2
        | cons x xs =>
          rw [hem] at hc2
          simp at hc2
          have hx : x ∈ base :=
            List.drop_subset k base (hem ▸ List.mem_cons_self x xs)
          exact absurd hc2 (hbase x hx)

lemma buildAPIRequest_messages (st : AgentState) (h : st.systemPrompt ≠ "") :
    (buildAPIRequest st).messages =
      { role := "system", tool_call_id := none,
        content := st.systemPrompt } ::
        formatMessagesForAPI st.messageHistory ∨
    ∃ k : Nat,
      (buildAPIRequest st).messages =
        { role := "system", tool_call_id := none,
          content := st.systemPrompt.take 500 } ::
          (formatMessagesForAPI st.messageHistory).drop k := by
  simp only [buildAPIRequest, if_pos h, List.length_cons]
  rw [apply_ite (fun r : ApiRequest => r.messages)]
  dsimp only
  split <;> split <;>
    first
      | (left; rfl)
      | exact emergencySlice_spec st.systemPrompt
          (formatMessagesForAPI st.messageHistory) h
          (formatMessagesForAPI_no_system st.messageHistory)

/-- Claim C8: whenever the system prompt is non-empty, the outbound
messages array has the system message at position 0 and contains exactly
one `system`-role entry — raw-log system messages are filtered out and
the emergency-pruning path re-unshifts a single (possibly truncated)
system message rather than duplicating it. -/
theorem C8_system_message_unique (st : AgentState) (h : st.systemPrompt ≠ "") :
    (buildAPIRequest st).messages.head?.map (fun m => m.role) =
      some "system" ∧
    countSystem (buildAPIRequest st).messages = 1 := by
  have hbase := formatMessagesForAPI_no_system st.messageHistory
  have hc0 : countSystem (formatMessagesForAPI st.messageHistory) = 0 := by
    rw [countSystem, List.countP_eq_zero]
    intro a ha
    simpa using hbase a ha
  rcases buildAPIRequest_messages st h with hm | ⟨k, hm⟩
  · rw [hm]
    constructor
    · rfl
    · rw [countSystem, List.countP_cons]
      rw [countSystem] at hc0
      simp [hc0]
  · rw [hm]
    constructor
    · rfl
    · rw [countSystem, List.countP_cons]
      have hdrop : ((formatMessagesForAPI st.messageHistory).drop k).countP
          (fun m => m.role == "system") = 0 := by
        rw [List.countP_eq_zero]
        intro a ha
        have := hbase a (List.drop_subset k _ ha)
        simpa using this
      simp [hdrop]

/-- Witness for C8 at a state with a system prompt and a log that even
contains a completed tool round. -/
theorem C8_witness :
    c8State.systemPrompt ≠ "" ∧
    (buildAPIRequest c8State).messages.head?.map (fun m => m.role) =
      some "system" ∧
    countSystem (buildAPIRequest c8State).messages = 1 := by
  have h := C8_system_message_unique c8State (by decide)
  exact ⟨by decide, h.1, h.2⟩

end AgentJs
